import Mathlib

/-!
Verification of an ARMv6-M Thumb instruction decoder.

The definitions below are a shallow embedding of the decoder sources
(`lib.rs`, `registers.rs`, `conditions.rs`, `instructons.rs`):

* machine integers (`u8`, `u16`, `u32`) are modelled as `Nat`, with an
  explicit `% 2^w` exactly where the machine arithmetic can wrap
  (byte assembly and the shifts inside sign extension);
* signed casts and arithmetic shifts (`as i16`, `as i32`, `>>`) are
  modelled through `Int` with floor division, which is precisely the
  semantics of a two's-complement arithmetic shift;
* `Result<T, ()>` is modelled as `Except DecodeFailure T`, where
  `DecodeFailure.errUnit` stands for the source's `Err(())` and
  `DecodeFailure.panicked` marks a `.unwrap()` that would panic, so that
  "the decoder never panics" is an ordinary statement about `parse`;
* the `Operation` variants are the ones the decoder in `lib.rs`
  constructs (plus `WFI`, which the instruction enumeration declares).
-/

/-- Normal register type, from `registers.rs`. -/
inductive Register
  | R0 | R1 | R2 | R3 | R4 | R5 | R6 | R7
  | R8 | R9 | R10 | R11 | R12 | SP | LR | PC
deriving DecidableEq, Repr

/-- Embedding of `TryFrom<u8> for Register` (`registers.rs`): values 0–15
decode to the sixteen registers, anything else is rejected. -/
def Register.tryFrom (value : Nat) : Option Register :=
  match value with
  | 0 => some .R0
  | 1 => some .R1
  | 2 => some .R2
  | 3 => some .R3
  | 4 => some .R4
  | 5 => some .R5
  | 6 => some .R6
  | 7 => some .R7
  | 8 => some .R8
  | 9 => some .R9
  | 10 => some .R10
  | 11 => some .R11
  | 12 => some .R12
  | 13 => some .SP
  | 14 => some .LR
  | 15 => some .PC
  | _ => none

/-- Total register-of-bits helper used to state theorems: the register whose
index is `value % 16`. On arguments below 16 it agrees with
`Register.tryFrom`. -/
def Register.ofBits (value : Nat) : Register :=
  match value % 16 with
  | 0 => .R0
  | 1 => .R1
  | 2 => .R2
  | 3 => .R3
  | 4 => .R4
  | 5 => .R5
  | 6 => .R6
  | 7 => .R7
  | 8 => .R8
  | 9 => .R9
  | 10 => .R10
  | 11 => .R11
  | 12 => .R12
  | 13 => .SP
  | 14 => .LR
  | _ => .PC

/-- Special register type, from `registers.rs`. -/
inductive SpecialRegister
  | APSR | IAPSR | EAPSR | XPSR | IPSR | EPSR | IEPSR
  | MSP | PSP | PRIMASK | CONTROL
deriving DecidableEq, Repr

/-- Embedding of `TryFrom<u8> for SpecialRegister` (`registers.rs`): the
sparse valid set of system-register codes. -/
def SpecialRegister.tryFrom (value : Nat) : Option SpecialRegister :=
  match value with
  | 0 => some .APSR
  | 1 => some .IAPSR
  | 2 => some .EAPSR
  | 3 => some .XPSR
  | 5 => some .IPSR
  | 6 => some .EPSR
  | 7 => some .IEPSR
  | 8 => some .MSP
  | 9 => some .PSP
  | 16 => some .PRIMASK
  | 20 => some .CONTROL
  | _ => none

/-- Condition type, from `conditions.rs`. `NoneCond` embeds the source's
`Condition::None` (numeric code 14, the "always" sentinel). -/
inductive Condition
  | EQ | NE | CS | CC | MI | PL | VS | VC
  | HI | LS | GE | LT | GT | LE | NoneCond
deriving DecidableEq, Repr

/-- Embedding of `TryFrom<u8> for Condition` (`conditions.rs`): 0–14 decode
to the fifteen conditions, anything else is rejected. -/
def Condition.tryFrom (value : Nat) : Option Condition :=
  match value with
  | 0 => some .EQ
  | 1 => some .NE
  | 2 => some .CS
  | 3 => some .CC
  | 4 => some .MI
  | 5 => some .PL
  | 6 => some .VS
  | 7 => some .VC
  | 8 => some .HI
  | 9 => some .LS
  | 10 => some .GE
  | 11 => some .LT
  | 12 => some .GT
  | 13 => some .LE
  | 14 => some .NoneCond
  | _ => none

/-- Total condition-of-bits helper used to state theorems: on arguments
below 15 it agrees with `Condition.tryFrom`. -/
def Condition.ofBits (value : Nat) : Condition :=
  match value % 16 with
  | 0 => .EQ
  | 1 => .NE
  | 2 => .CS
  | 3 => .CC
  | 4 => .MI
  | 5 => .PL
  | 6 => .VS
  | 7 => .VC
  | 8 => .HI
  | 9 => .LS
  | 10 => .GE
  | 11 => .LT
  | 12 => .GT
  | 13 => .LE
  | _ => .NoneCond

/-- How an embedded decode can fail: `errUnit` is the source's `Err(())`,
`panicked` marks a `.unwrap()` on a failed conversion (a Rust panic). -/
inductive DecodeFailure
  | errUnit
  | panicked
deriving DecidableEq, Repr

/-- Embedding of `try_into().unwrap()` on a register code: a failed
conversion panics rather than returning `Err`. -/
def decodeReg (value : Nat) : Except DecodeFailure Register :=
  match Register.tryFrom value with
  | some r => .ok r
  | none => .error .panicked

/-- Embedding of `try_into()?` on a special-register code: a failed
conversion propagates the source's `Err(())`. -/
def decodeSpecial (value : Nat) : Except DecodeFailure SpecialRegister :=
  match SpecialRegister.tryFrom value with
  | some s => .ok s
  | none => .error .errUnit

/-- Embedding of `try_into()?` on a condition code: a failed conversion
propagates a decode error. -/
def decodeCond (value : Nat) : Except DecodeFailure Condition :=
  match Condition.tryFrom value with
  | some c => .ok c
  | none => .error .errUnit

/-- Loop body of `register_list_from_bit_array` (`registers.rs`): iterate
over the given bit indices in order, pushing register `i` whenever bit `i`
of the bitmap is set; the `unwrap` inside the loop is kept visible. -/
def regListLoop (bitArray : Nat) : List Nat → Except DecodeFailure (List Register)
  | [] => .ok []
  | i :: rest =>
    if (bitArray >>> i) &&& 1 = 1 then
      match Register.tryFrom i with
      | some r =>
        match regListLoop bitArray rest with
        | .ok tail => .ok (r :: tail)
        | .error e => .error e
      | none => .error .panicked
    else regListLoop bitArray rest

/-- Embedding of `register_list_from_bit_array` (`registers.rs`): expand a
16-bit bitmap into the list of registers whose bit is set, by looping `i`
over `0..16`. -/
def register_list_from_bit_array (bitArray : Nat) : Except DecodeFailure (List Register) :=
  regListLoop bitArray (List.range 16)

/-- Embedding of `SignExtend for u16` (`lib.rs`):
`((self << shift) as i16 >> shift) as i32 as u32` with `shift = 16 - valid_bits`.
The `u16` left shift wraps modulo `2^16`, the `i16` arithmetic right shift is
floor division, and the final casts sign-extend to 32 bits. -/
def sign_extend_u16 (x validBits : Nat) : Nat :=
  let shift := 16 - validBits
  let y : Nat := (x <<< shift) % 2^16
  let z : Int := if y < 2^15 then (y : Int) else (y : Int) - 2^16
  ((Int.fdiv z ((2 : Int)^shift)) % ((2 : Int)^32)).toNat

/-- Embedding of `SignExtend for u32` (`lib.rs`):
`((self << shift) as i32 >> shift) as u32` with `shift = 32 - valid_bits`. -/
def sign_extend_u32 (x validBits : Nat) : Nat :=
  let shift := 32 - validBits
  let y : Nat := (x <<< shift) % 2^32
  let z : Int := if y < 2^31 then (y : Int) else (y : Int) - 2^32
  ((Int.fdiv z ((2 : Int)^shift)) % ((2 : Int)^32)).toNat

/-- Width of a decoded instruction, from `instructons.rs`. -/
inductive InstructionWidth
  | Bit32
  | Bit16
deriving DecidableEq, Repr

/-- Operation variants as constructed by the decoder in `lib.rs` (field
order follows the extraction order at each construction site), plus `WFI`,
which the instruction enumeration declares. -/
inductive Operation
  | MSRReg (n : Register) (sysm : SpecialRegister)
  | MRS (d : Register) (sysm : SpecialRegister)
  | DSB (opt : Nat)
  | DMB (opt : Nat)
  | ISB (opt : Nat)
  | BL (imm : Nat)
  | LDRLiteral (t : Register) (imm : Nat)
  | ADR (d : Register) (imm : Nat)
  | ADDImmSP (d : Register) (imm : Nat)
  | SUBImmSP (imm : Nat)
  | STM (n : Register) (reg_list : List Register)
  | LDM (n : Register) (reg_list : List Register)
  | B (cond : Condition) (imm : Nat)
  | SVC (imm : Nat)
  | STRReg (m : Register) (n : Register) (t : Register)
  | STRHReg (m : Register) (n : Register) (t : Register)
  | STRBReg (m : Register) (n : Register) (t : Register)
  | LDRSBReg (m : Register) (n : Register) (t : Register)
  | LDRReg (m : Register) (n : Register) (t : Register)
  | LDRHReg (m : Register) (n : Register) (t : Register)
  | LDRBReg (m : Register) (n : Register) (t : Register)
  | LDRSH (m : Register) (n : Register) (t : Register)
  | STRImm (imm : Nat) (n : Register) (t : Register)
  | LDRImm (imm : Nat) (n : Register) (t : Register)
  | STRBImm (imm : Nat) (n : Register) (t : Register)
  | LDRBImm (imm : Nat) (n : Register) (t : Register)
  | STRHImm (imm : Nat) (n : Register) (t : Register)
  | LDRHImm (imm : Nat) (n : Register) (t : Register)
  | ADDRegSP (d : Register) (m : Register)
  | ADDReg (m : Register) (n : Register) (d : Register)
  | SUBReg (m : Register) (n : Register) (d : Register)
  | CMPReg (m : Register) (n : Register)
  | MOVReg (set_flags : Bool) (m : Register) (d : Register)
  | BX (m : Register)
  | BLXReg (m : Register)
  | ANDReg (m : Register) (dn : Register)
  | EORReg (m : Register) (dn : Register)
  | LSLReg (m : Register) (dn : Register)
  | LSRReg (m : Register) (dn : Register)
  | ASRReg (m : Register) (dn : Register)
  | ADCReg (m : Register) (n : Register) (d : Register)
  | SBCReg (m : Register) (dn : Register)
  | RORReg (m : Register) (dn : Register)
  | TSTReg (m : Register) (n : Register)
  | RSBImm (n : Register) (d : Register)
  | CMNReg (m : Register) (n : Register)
  | ORRReg (m : Register) (dn : Register)
  | MUL (n : Register) (dm : Register)
  | BICReg (m : Register) (dn : Register)
  | MVNReg (m : Register) (d : Register)
  | LSLImm (imm : Nat) (m : Register) (d : Register)
  | LSRImm (imm : Nat) (m : Register) (d : Register)
  | ASRImm (imm : Nat) (m : Register) (d : Register)
  | ADDImm (imm : Nat) (n : Register) (d : Register)
  | SUBImm (imm : Nat) (n : Register) (d : Register)
  | MOVImm (d : Register) (imm : Nat)
  | CMPImm (n : Register) (imm : Nat)
  | SXTH (m : Register) (d : Register)
  | SXTB (m : Register) (d : Register)
  | UXTH (m : Register) (d : Register)
  | UXTB (m : Register) (d : Register)
  | PUSH (reg_list : List Register)
  | POP (reg_list : List Register)
  | CPS (im : Bool)
  | REV (m : Register) (d : Register)
  | REV16 (m : Register) (d : Register)
  | REVSH (m : Register) (d : Register)
  | BKPT (imm : Nat)
  | NOP
  | YIELD
  | WFE
  | WFI
  | SEV

/-- A decoded instruction: width tag plus operation, from `instructons.rs`. -/
structure Instruction where
  width : InstructionWidth
  operation : Operation

/-- Numeric index of a register (the `repr(u8)` discriminant), used where
the source casts a register back to an integer (`imm as u32`). -/
def Register.val : Register → Nat
  | .R0 => 0
  | .R1 => 1
  | .R2 => 2
  | .R3 => 3
  | .R4 => 4
  | .R5 => 5
  | .R6 => 6
  | .R7 => 7
  | .R8 => 8
  | .R9 => 9
  | .R10 => 10
  | .R11 => 11
  | .R12 => 12
  | .SP => 13
  | .LR => 14
  | .PC => 15

/-- Error-propagating sequencing for embedded decode steps (the shape the
source's straight-line decode bodies have after `?`/`unwrap`). -/
def andThen (x : Except DecodeFailure α) (f : α → Except DecodeFailure β) :
    Except DecodeFailure β :=
  match x with
  | .ok a => f a
  | .error e => .error e

theorem andThen_ok (a : α) (f : α → Except DecodeFailure β) :
    andThen (.ok a) f = f a := rfl

theorem andThen_error (e : DecodeFailure) (f : α → Except DecodeFailure β) :
    andThen (.error e) f = .error e := rfl

/-- Embedding of `parse_misc_ctrl` (`lib.rs`): the three barrier
instructions, selected by bits 7–4, each carrying a 4-bit option. -/
def parse_misc_ctrl (input : Nat) : Except DecodeFailure Operation :=
  if (input >>> 4) &&& 0xf = 0b0100 then .ok (.DSB (input &&& 0xf))
  else if (input >>> 4) &&& 0xf = 0b0101 then .ok (.DMB (input &&& 0xf))
  else if (input >>> 4) &&& 0xf = 0b0110 then .ok (.ISB (input &&& 0xf))
  else .error .errUnit

/-- Embedding of `parse_branch_misc_ctrl` (`lib.rs`): dispatch on
`op1 = input[26:20]` crossed with `op2 = input[14:12]`, in source arm
order; the last real arm assembles the branch-with-link immediate. -/
def parse_branch_misc_ctrl (input : Nat) : Except DecodeFailure Operation :=
  if ((input >>> 12) &&& 0x7 = 0b000 ∨ (input >>> 12) &&& 0x7 = 0b010) ∧
      0b0111000 ≤ (input >>> 20) &&& 0x7f ∧ (input >>> 20) &&& 0x7f ≤ 0b0111001 then
    andThen (decodeReg ((input >>> 16) &&& 0xf)) fun rn =>
    andThen (decodeSpecial (input &&& 0xff)) fun sysm =>
    .ok (.MSRReg rn sysm)
  else if ((input >>> 12) &&& 0x7 = 0b000 ∨ (input >>> 12) &&& 0x7 = 0b010) ∧
      (input >>> 20) &&& 0x7f = 0b0111011 then
    parse_misc_ctrl input
  else if ((input >>> 12) &&& 0x7 = 0b000 ∨ (input >>> 12) &&& 0x7 = 0b010) ∧
      0b0111110 ≤ (input >>> 20) &&& 0x7f ∧ (input >>> 20) &&& 0x7f ≤ 0b0111111 then
    andThen (decodeReg ((input >>> 8) &&& 0xf)) fun rd =>
    andThen (decodeSpecial (input &&& 0xff)) fun sysm =>
    .ok (.MRS rd sysm)
  else if (input >>> 12) &&& 0x7 = 0b111 ∧ (input >>> 20) &&& 0x7f = 0b1111111 then
    .error .errUnit
  else if (input >>> 12) &&& 0x7 = 0b101 ∨ (input >>> 12) &&& 0x7 = 0b111 then
    .ok (.BL (sign_extend_u32
      ((((input >>> 26) &&& 0x1) <<< 24) |||
        (((((input >>> 13) &&& 0x1) ^^^ ((input >>> 26) &&& 0x1)) ^^^ 0xffffffff) &&& 0x1) <<< 23 |||
        (((((input >>> 11) &&& 0x1) ^^^ ((input >>> 26) &&& 0x1)) ^^^ 0xffffffff) &&& 0x1) <<< 22 |||
        (((input >>> 16) &&& 0x3ff) <<< 12) ||| ((input &&& 0x7ff) <<< 1)) 25))
  else .error .errUnit

/-- Embedding of `parse_32bit_operation` (`lib.rs`): only the branch and
miscellaneous control region (`op1 = 0b10`, `op = 1`) is decoded. -/
def parse_32bit_operation (input : Nat) : Except DecodeFailure Operation :=
  if (input >>> 27) &&& 0x3 = 0b10 ∧ (input >>> 15) &&& 0x1 = 0b1 then
    parse_branch_misc_ctrl input
  else .error .errUnit

/-- Embedding of `parse_hint_instruction` (`lib.rs`): reject when the low
4 bits are nonzero, then select a hint by bits 7–4. The source maps both
`0b0010` and `0b0011` to `WFE`. -/
def parse_hint_instruction (input : Nat) : Except DecodeFailure Operation :=
  if input &&& 0xf > 0 then .error .errUnit
  else if (input >>> 4) &&& 0xf = 0b0000 then .ok .NOP
  else if (input >>> 4) &&& 0xf = 0b0001 then .ok .YIELD
  else if (input >>> 4) &&& 0xf = 0b0010 then .ok .WFE
  else if (input >>> 4) &&& 0xf = 0b0011 then .ok .WFE
  else if (input >>> 4) &&& 0xf = 0b0100 then .ok .SEV
  else .error .errUnit

/-- Embedding of `parse_misc_16_bit` (`lib.rs`): dispatch on bits 11–5. -/
def parse_misc_16_bit (input : Nat) : Except DecodeFailure Operation :=
  if ((input >>> 5) &&& 0x7f) ≤ 0b0000011 then
    .ok (.ADDImmSP .SP ((input &&& 0x7f) <<< 2))
  else if 0b0000100 ≤ ((input >>> 5) &&& 0x7f) ∧ ((input >>> 5) &&& 0x7f) ≤ 0b0000111 then
    .ok (.SUBImmSP ((input &&& 0x7f) <<< 2))
  else if 0b0010000 ≤ ((input >>> 5) &&& 0x7f) ∧ ((input >>> 5) &&& 0x7f) ≤ 0b0010001 then
    andThen (decodeReg ((input >>> 3) &&& 0x7)) fun rm =>
    andThen (decodeReg (input &&& 0x7)) fun rd =>
    .ok (.SXTH rm rd)
  else if 0b0010010 ≤ ((input >>> 5) &&& 0x7f) ∧ ((input >>> 5) &&& 0x7f) ≤ 0b0010011 then
    andThen (decodeReg ((input >>> 3) &&& 0x7)) fun rm =>
    andThen (decodeReg (input &&& 0x7)) fun rd =>
    .ok (.SXTB rm rd)
  else if 0b0010100 ≤ ((input >>> 5) &&& 0x7f) ∧ ((input >>> 5) &&& 0x7f) ≤ 0b0010101 then
    andThen (decodeReg ((input >>> 3) &&& 0x7)) fun rm =>
    andThen (decodeReg (input &&& 0x7)) fun rd =>
    .ok (.UXTH rm rd)
  else if 0b0010110 ≤ ((input >>> 5) &&& 0x7f) ∧ ((input >>> 5) &&& 0x7f) ≤ 0b0010111 then
    andThen (decodeReg ((input >>> 3) &&& 0x7)) fun rm =>
    andThen (decodeReg (input &&& 0x7)) fun rd =>
    .ok (.UXTB rm rd)
  else if 0b0100000 ≤ ((input >>> 5) &&& 0x7f) ∧ ((input >>> 5) &&& 0x7f) ≤ 0b0101111 then
    andThen (register_list_from_bit_array
        ((((input >>> 8) &&& 0b1) <<< 14) ||| (input &&& 0xff))) fun reg_list =>
    .ok (.PUSH reg_list)
  else if ((input >>> 5) &&& 0x7f) = 0b0110011 then
    .ok (.CPS (((input >>> 4) &&& 0b1) = 1))
  else if 0b1010000 ≤ ((input >>> 5) &&& 0x7f) ∧ ((input >>> 5) &&& 0x7f) ≤ 0b1010001 then
    andThen (decodeReg ((input >>> 3) &&& 0x7)) fun rm =>
    andThen (decodeReg (input &&& 0x7)) fun rd =>
    .ok (.REV rm rd)
  else if 0b1010010 ≤ ((input >>> 5) &&& 0x7f) ∧ ((input >>> 5) &&& 0x7f) ≤ 0b1010011 then
    andThen (decodeReg ((input >>> 3) &&& 0x7)) fun rm =>
    andThen (decodeReg (input &&& 0x7)) fun rd =>
    .ok (.REV16 rm rd)
  else if 0b1010110 ≤ ((input >>> 5) &&& 0x7f) ∧ ((input >>> 5) &&& 0x7f) ≤ 0b1010111 then
    andThen (decodeReg ((input >>> 3) &&& 0x7)) fun rm =>
    andThen (decodeReg (input &&& 0x7)) fun rd =>
    .ok (.REVSH rm rd)
  else if 0b1100000 ≤ ((input >>> 5) &&& 0x7f) ∧ ((input >>> 5) &&& 0x7f) ≤ 0b1101111 then
    andThen (register_list_from_bit_array
        ((((input >>> 8) &&& 0b1) <<< 15) ||| (input &&& 0xff))) fun reg_list =>
    .ok (.POP reg_list)
  else if 0b1110000 ≤ ((input >>> 5) &&& 0x7f) ∧ ((input >>> 5) &&& 0x7f) ≤ 0b1110111 then
    .ok (.BKPT (input &&& 0xff))
  else if 0b1111000 ≤ ((input >>> 5) &&& 0x7f) ∧ ((input >>> 5) &&& 0x7f) ≤ 0b1111111 then
    parse_hint_instruction input
  else .error .errUnit

/-- Embedding of `parse_arith_instructions` (`lib.rs`): dispatch on bits
13–9; the shift-immediate-zero case of the LSL arm produces a flag-setting
register move instead. -/
def parse_arith_instructions (input : Nat) : Except DecodeFailure Operation :=
  if ((input >>> 9) &&& 0x1f) ≤ 0b00011 then
    andThen (decodeReg ((input >>> 3) &&& 0x7)) fun rm =>
    andThen (decodeReg (input &&& 0x7)) fun rd =>
    if ((input >>> 6) &&& 0x1f) > 0 then .ok (.LSLImm ((input >>> 6) &&& 0x1f) rm rd)
    else .ok (.MOVReg true rm rd)
  else if 0b00100 ≤ ((input >>> 9) &&& 0x1f) ∧ ((input >>> 9) &&& 0x1f) ≤ 0b00111 then
    andThen (decodeReg ((input >>> 3) &&& 0x7)) fun rm =>
    andThen (decodeReg (input &&& 0x7)) fun rd =>
    .ok (.LSRImm ((input >>> 6) &&& 0x1f) rm rd)
  else if 0b01000 ≤ ((input >>> 9) &&& 0x1f) ∧ ((input >>> 9) &&& 0x1f) ≤ 0b01011 then
    andThen (decodeReg ((input >>> 3) &&& 0x7)) fun rm =>
    andThen (decodeReg (input &&& 0x7)) fun rd =>
    .ok (.ASRImm ((input >>> 6) &&& 0x1f) rm rd)
  else if ((input >>> 9) &&& 0x1f) = 0b01100 then
    andThen (decodeReg ((input >>> 6) &&& 0x7)) fun rm =>
    andThen (decodeReg ((input >>> 3) &&& 0x7)) fun rn =>
    andThen (decodeReg (input &&& 0x7)) fun rd =>
    .ok (.ADDReg rm rn rd)
  else if ((input >>> 9) &&& 0x1f) = 0b01101 then
    andThen (decodeReg ((input >>> 6) &&& 0x7)) fun rm =>
    andThen (decodeReg ((input >>> 3) &&& 0x7)) fun rn =>
    andThen (decodeReg (input &&& 0x7)) fun rd =>
    .ok (.SUBReg rm rn rd)
  else if ((input >>> 9) &&& 0x1f) = 0b01110 then
    andThen (decodeReg ((input >>> 3) &&& 0x7)) fun rn =>
    andThen (decodeReg (input &&& 0x7)) fun rd =>
    .ok (.ADDImm ((input >>> 6) &&& 0x7) rn rd)
  else if ((input >>> 9) &&& 0x1f) = 0b01111 then
    andThen (decodeReg ((input >>> 6) &&& 0x7)) fun imm =>
    andThen (decodeReg ((input >>> 3) &&& 0x7)) fun rn =>
    andThen (decodeReg (input &&& 0x7)) fun rd =>
    .ok (.SUBImm imm.val rn rd)
  else if 0b10000 ≤ ((input >>> 9) &&& 0x1f) ∧ ((input >>> 9) &&& 0x1f) ≤ 0b10011 then
    andThen (decodeReg ((input >>> 8) &&& 0x7)) fun rd =>
    .ok (.MOVImm rd (input &&& 0xff))
  else if 0b10100 ≤ ((input >>> 9) &&& 0x1f) ∧ ((input >>> 9) &&& 0x1f) ≤ 0b10111 then
    andThen (decodeReg ((input >>> 8) &&& 0x7)) fun rn =>
    .ok (.CMPImm rn (input &&& 0xff))
  else if 0b11000 ≤ ((input >>> 9) &&& 0x1f) ∧ ((input >>> 9) &&& 0x1f) ≤ 0b11011 then
    andThen (decodeReg ((input >>> 8) &&& 0x7)) fun rdn =>
    .ok (.ADDImm (input &&& 0xff) rdn rdn)
  else if 0b11100 ≤ ((input >>> 9) &&& 0x1f) ∧ ((input >>> 9) &&& 0x1f) ≤ 0b11111 then
    andThen (decodeReg ((input >>> 8) &&& 0x7)) fun rdn =>
    .ok (.SUBImm (input &&& 0xff) rdn rdn)
  else .error .errUnit

/-- Embedding of `parse_data_processing_instruction` (`lib.rs`): sixteen
register-to-register ALU operations selected by bits 9–6. -/
def parse_data_processing_instruction (input : Nat) : Except DecodeFailure Operation :=
  andThen (decodeReg ((input >>> 3) &&& 0x7)) fun rm =>
  andThen (decodeReg (input &&& 0x7)) fun rdn =>
  if ((input >>> 6) &&& 0xf) = 0b0000 then .ok (.ANDReg rm rdn)
  else if ((input >>> 6) &&& 0xf) = 0b0001 then .ok (.EORReg rm rdn)
  else if ((input >>> 6) &&& 0xf) = 0b0010 then .ok (.LSLReg rm rdn)
  else if ((input >>> 6) &&& 0xf) = 0b0011 then .ok (.LSRReg rm rdn)
  else if ((input >>> 6) &&& 0xf) = 0b0100 then .ok (.ASRReg rm rdn)
  else if ((input >>> 6) &&& 0xf) = 0b0101 then .ok (.ADCReg rm rdn rdn)
  else if ((input >>> 6) &&& 0xf) = 0b0110 then .ok (.SBCReg rm rdn)
  else if ((input >>> 6) &&& 0xf) = 0b0111 then .ok (.RORReg rm rdn)
  else if ((input >>> 6) &&& 0xf) = 0b1000 then .ok (.TSTReg rm rdn)
  else if ((input >>> 6) &&& 0xf) = 0b1001 then .ok (.RSBImm rm rdn)
  else if ((input >>> 6) &&& 0xf) = 0b1010 then .ok (.CMPReg rm rdn)
  else if ((input >>> 6) &&& 0xf) = 0b1011 then .ok (.CMNReg rm rdn)
  else if ((input >>> 6) &&& 0xf) = 0b1100 then .ok (.ORRReg rm rdn)
  else if ((input >>> 6) &&& 0xf) = 0b1101 then .ok (.MUL rm rdn)
  else if ((input >>> 6) &&& 0xf) = 0b1110 then .ok (.BICReg rm rdn)
  else .ok (.MVNReg rm rdn)

/-- Embedding of `parse_special_data_branch_exchange_instruction`
(`lib.rs`): dispatch on bits 9–6; the add arm disambiguates by which
operand equals the stack pointer, not by opcode bits alone. -/
def parse_special_data_branch_exchange_instruction (input : Nat) :
    Except DecodeFailure Operation :=
  if ((input >>> 6) &&& 0xf) ≤ 0b0011 then
    andThen (decodeReg ((input >>> 3) &&& 0xf)) fun rm =>
    andThen (decodeReg ((input &&& 0x7) ||| ((input >>> 4) &&& 0b1000))) fun rdn =>
    if rdn = .SP ∨ rm = .SP then
      if rm = .SP then .ok (.ADDRegSP rdn rdn)
      else .ok (.ADDRegSP .SP rm)
    else .ok (.ADDReg rm rdn rdn)
  else if ((input >>> 6) &&& 0xf) = 0b0100 then .error .errUnit
  else if ((input >>> 6) &&& 0xf) = 0b0101 ∨ (0b0110 ≤ ((input >>> 6) &&& 0xf) ∧ ((input >>> 6) &&& 0xf) ≤ 0b0111) then
    andThen (decodeReg ((input >>> 3) &&& 0xf)) fun rm =>
    andThen (decodeReg ((input &&& 0x7) ||| ((input >>> 4) &&& 0b1000))) fun rn =>
    .ok (.CMPReg rm rn)
  else if 0b1000 ≤ ((input >>> 6) &&& 0xf) ∧ ((input >>> 6) &&& 0xf) ≤ 0b1011 then
    andThen (decodeReg ((input >>> 3) &&& 0xf)) fun rm =>
    andThen (decodeReg ((input &&& 0x7) ||| ((input >>> 4) &&& 0b1000))) fun rd =>
    .ok (.MOVReg false rm rd)
  else if 0b1100 ≤ ((input >>> 6) &&& 0xf) ∧ ((input >>> 6) &&& 0xf) ≤ 0b1101 then
    andThen (decodeReg ((input >>> 3) &&& 0xf)) fun rm =>
    .ok (.BX rm)
  else if 0b1110 ≤ ((input >>> 6) &&& 0xf) ∧ ((input >>> 6) &&& 0xf) ≤ 0b1111 then
    andThen (decodeReg ((input >>> 3) &&& 0xf)) fun rm =>
    .ok (.BLXReg rm)
  else .error .errUnit

/-- Embedding of `parse_load_store_instruction` (`lib.rs`): dispatch on
`op_a = input[15:12]` and `op_b = input[11:9]`. -/
def parse_load_store_instruction (input : Nat) : Except DecodeFailure Operation :=
  if ((input >>> 12) &&& 0xf) = 0b0101 then
    andThen (decodeReg ((input >>> 6) &&& 0x7)) fun rm =>
    andThen (decodeReg ((input >>> 3) &&& 0x7)) fun rn =>
    andThen (decodeReg (input &&& 0x7)) fun rt =>
    if ((input >>> 9) &&& 0x7) = 0b000 then .ok (.STRReg rm rn rt)
    else if ((input >>> 9) &&& 0x7) = 0b001 then .ok (.STRHReg rm rn rt)
    else if ((input >>> 9) &&& 0x7) = 0b010 then .ok (.STRBReg rm rn rt)
    else if ((input >>> 9) &&& 0x7) = 0b011 then .ok (.LDRSBReg rm rn rt)
    else if ((input >>> 9) &&& 0x7) = 0b100 then .ok (.LDRReg rm rn rt)
    else if ((input >>> 9) &&& 0x7) = 0b101 then .ok (.LDRHReg rm rn rt)
    else if ((input >>> 9) &&& 0x7) = 0b110 then .ok (.LDRBReg rm rn rt)
    else .ok (.LDRSH rm rn rt)
  else if ((input >>> 12) &&& 0xf) = 0b0110 then
    andThen (decodeReg ((input >>> 3) &&& 0x7)) fun rn =>
    andThen (decodeReg (input &&& 0x7)) fun rt =>
    if ((input >>> 9) &&& 0x7) ≤ 0b011 then .ok (.STRImm ((input &&& 0x7c0) >>> 4) rn rt)
    else .ok (.LDRImm ((input &&& 0x7c0) >>> 4) rn rt)
  else if ((input >>> 12) &&& 0xf) = 0b0111 then
    andThen (decodeReg ((input >>> 3) &&& 0x7)) fun rn =>
    andThen (decodeReg (input &&& 0x7)) fun rt =>
    if ((input >>> 9) &&& 0x7) ≤ 0b011 then .ok (.STRBImm ((input &&& 0x7c0) >>> 6) rn rt)
    else .ok (.LDRBImm ((input &&& 0x7c0) >>> 6) rn rt)
  else if ((input >>> 12) &&& 0xf) = 0b1000 then
    andThen (decodeReg ((input >>> 3) &&& 0x7)) fun rn =>
    andThen (decodeReg (input &&& 0x7)) fun rt =>
    if ((input >>> 9) &&& 0x7) ≤ 0b011 then .ok (.STRHImm ((input &&& 0x7c0) >>> 5) rn rt)
    else .ok (.LDRHImm ((input &&& 0x7c0) >>> 5) rn rt)
  else if ((input >>> 12) &&& 0xf) = 0b1001 then
    andThen (decodeReg ((input >>> 8) &&& 0x7)) fun rt =>
    if ((input >>> 9) &&& 0x7) ≤ 0b011 then .ok (.STRImm ((input &&& 0xff) <<< 2) .SP rt)
    else .ok (.LDRImm ((input &&& 0xff) <<< 2) .SP rt)
  else .error .errUnit

/-- Embedding of `parse_conditional_branch` (`lib.rs`): nibble 14 is
permanently undefined, nibble 15 is a supervisor call, everything else is
a conditional branch whose condition is decoded generically afterwards. -/
def parse_conditional_branch (input : Nat) : Except DecodeFailure Operation :=
  if (input >>> 8) &&& 0xf = 0b1110 then .error .errUnit
  else if (input >>> 8) &&& 0xf = 0b1111 then .ok (.SVC (input &&& 0xff))
  else
    andThen (decodeCond ((input >>> 8) &&& 0xf)) fun cond =>
    .ok (.B cond (sign_extend_u16 ((input &&& 0xff) <<< 1) 9))

/-- Embedding of `parse_16bit_operation` (`lib.rs`): first-level dispatch
on the major opcode, bits 15–10 of the halfword. -/
def parse_16bit_operation (input : Nat) : Except DecodeFailure Operation :=
  if ((input >>> 10) &&& 0x3f) ≤ 0b001111 then
    parse_arith_instructions input
  else if ((input >>> 10) &&& 0x3f) = 0b010000 then
    parse_data_processing_instruction input
  else if ((input >>> 10) &&& 0x3f) = 0b010001 then
    parse_special_data_branch_exchange_instruction input
  else if 0b010010 ≤ ((input >>> 10) &&& 0x3f) ∧ ((input >>> 10) &&& 0x3f) ≤ 0b010011 then
    andThen (decodeReg ((input >>> 8) &&& 0x7)) fun rt =>
    .ok (.LDRLiteral rt ((input &&& 0xff) <<< 2))
  else if 0b010100 ≤ ((input >>> 10) &&& 0x3f) ∧ ((input >>> 10) &&& 0x3f) ≤ 0b100111 then
    parse_load_store_instruction input
  else if 0b101000 ≤ ((input >>> 10) &&& 0x3f) ∧ ((input >>> 10) &&& 0x3f) ≤ 0b101001 then
    andThen (decodeReg ((input >>> 8) &&& 0x7)) fun rd =>
    .ok (.ADR rd ((input &&& 0xff) <<< 2))
  else if 0b101010 ≤ ((input >>> 10) &&& 0x3f) ∧ ((input >>> 10) &&& 0x3f) ≤ 0b101011 then
    andThen (decodeReg ((input >>> 8) &&& 0x7)) fun rd =>
    .ok (.ADDImmSP rd ((input &&& 0xff) <<< 2))
  else if 0b101100 ≤ ((input >>> 10) &&& 0x3f) ∧ ((input >>> 10) &&& 0x3f) ≤ 0b101111 then
    parse_misc_16_bit input
  else if 0b110000 ≤ ((input >>> 10) &&& 0x3f) ∧ ((input >>> 10) &&& 0x3f) ≤ 0b110001 then
    andThen (decodeReg ((input >>> 8) &&& 0x7)) fun rn =>
    andThen (register_list_from_bit_array (input &&& 0xff)) fun reg_list =>
    .ok (.STM rn reg_list)
  else if 0b110010 ≤ ((input >>> 10) &&& 0x3f) ∧ ((input >>> 10) &&& 0x3f) ≤ 0b110011 then
    andThen (decodeReg ((input >>> 8) &&& 0x7)) fun rn =>
    andThen (register_list_from_bit_array (input &&& 0xff)) fun reg_list =>
    .ok (.LDM rn reg_list)
  else if 0b110100 ≤ ((input >>> 10) &&& 0x3f) ∧ ((input >>> 10) &&& 0x3f) ≤ 0b110111 then
    parse_conditional_branch input
  else if 0b111000 ≤ ((input >>> 10) &&& 0x3f) ∧ ((input >>> 10) &&& 0x3f) ≤ 0b111001 then
    .ok (.B .NoneCond (sign_extend_u16 ((input &&& 0x7ff) <<< 1) 12))
  else .error .errUnit

/-- Embedding of `parse` (`lib.rs`): fewer than 2 bytes fails; the first
little-endian halfword's top 5 bits select the 32-bit path (values 29-31,
which additionally requires at least 4 bytes, checked before the second
halfword is read) or the 16-bit path. Byte `i` of the slice is
`input.getD i 0`; the default is never used because the length is checked
first. -/
def parse (input : List Nat) : Except DecodeFailure Instruction :=
  if input.length < 2 then .error .errUnit
  else
    if ((((input.getD 0 0 % 256) + 256 * (input.getD 1 0 % 256)) >>> 11) &&& 0x1f = 0b11101 ∨
        (((input.getD 0 0 % 256) + 256 * (input.getD 1 0 % 256)) >>> 11) &&& 0x1f = 0b11110 ∨
        (((input.getD 0 0 % 256) + 256 * (input.getD 1 0 % 256)) >>> 11) &&& 0x1f = 0b11111) then
      if input.length < 4 then .error .errUnit
      else
        andThen (parse_32bit_operation
            ((((input.getD 0 0 % 256) + 256 * (input.getD 1 0 % 256)) <<< 16) |||
              ((input.getD 2 0 % 256) + 256 * (input.getD 3 0 % 256))))
          fun operation => .ok ⟨.Bit32, operation⟩
    else
      andThen (parse_16bit_operation ((input.getD 0 0 % 256) + 256 * (input.getD 1 0 % 256)))
        fun operation => .ok ⟨.Bit16, operation⟩

theorem registerTryFrom_lt (n : Nat) (h : n < 16) :
    Register.tryFrom n = some (Register.ofBits n) := by
  revert h; revert n; decide

theorem conditionTryFrom_lt (n : Nat) (h : n < 15) :
    Condition.tryFrom n = some (Condition.ofBits n) := by
  revert h; revert n; decide

theorem decodeReg_of_lt {n : Nat} (h : n < 16) :
    decodeReg n = .ok (Register.ofBits n) := by
  unfold decodeReg
  rw [registerTryFrom_lt n h]

theorem decodeCond_of_lt {n : Nat} (h : n < 15) :
    decodeCond n = .ok (Condition.ofBits n) := by
  unfold decodeCond
  rw [conditionTryFrom_lt n h]

theorem decodeReg_and7 (x : Nat) :
    decodeReg (x &&& 0x7) = .ok (Register.ofBits (x &&& 0x7)) :=
  decodeReg_of_lt (Nat.lt_of_le_of_lt Nat.and_le_right (by norm_num))

theorem decodeReg_andF (x : Nat) :
    decodeReg (x &&& 0xf) = .ok (Register.ofBits (x &&& 0xf)) :=
  decodeReg_of_lt (Nat.lt_of_le_of_lt Nat.and_le_right (by norm_num))

theorem decodeReg_hiLo (x y : Nat) :
    decodeReg ((x &&& 0x7) ||| (y &&& 0b1000)) =
      .ok (Register.ofBits ((x &&& 0x7) ||| (y &&& 0b1000))) := by
  refine decodeReg_of_lt ?_
  have h1 : x &&& 0x7 < 2^4 :=
    Nat.lt_of_le_of_lt Nat.and_le_right (by norm_num)
  have h2 : y &&& 0b1000 < 2^4 :=
    Nat.lt_of_le_of_lt Nat.and_le_right (by norm_num)
  exact Nat.or_lt_two_pow h1 h2

theorem and_one_eq_one_iff_testBit (bm i : Nat) :
    ((bm >>> i) &&& 1 = 1) ↔ bm.testBit i = true := by
  rw [Nat.and_one_is_mod, Nat.testBit_to_div_mod, Nat.shiftRight_eq_div_pow]
  simp

theorem regListLoop_eq (bm : Nat) :
    ∀ l : List Nat, (∀ i ∈ l, i < 16) →
      regListLoop bm l =
        .ok ((l.filter (fun i => bm.testBit i)).map Register.ofBits)
  | [], _ => rfl
  | i :: rest, h => by
    have hi : i < 16 := h i (List.mem_cons_self i rest)
    have hrest : ∀ j ∈ rest, j < 16 := fun j hj => h j (List.mem_cons_of_mem i hj)
    unfold regListLoop
    by_cases hb : (bm >>> i) &&& 1 = 1
    · have ht : bm.testBit i = true := (and_one_eq_one_iff_testBit bm i).mp hb
      rw [if_pos hb, registerTryFrom_lt i hi, regListLoop_eq bm rest hrest]
      simp [List.filter_cons, ht]
    · have ht : bm.testBit i = false := by
        cases htb : bm.testBit i with
        | false => rfl
        | true => exact absurd ((and_one_eq_one_iff_testBit bm i).mpr htb) hb
      rw [if_neg hb, regListLoop_eq bm rest hrest]
      simp [List.filter_cons, ht]

theorem register_list_eq (bm : Nat) :
    register_list_from_bit_array bm =
      .ok (((List.range 16).filter (fun i => bm.testBit i)).map Register.ofBits) :=
  regListLoop_eq bm (List.range 16) (fun _ hi => List.mem_range.mp hi)
/-- Core arithmetic fact behind both sign-extension implementations: the
shift-up / arithmetic-shift-down / widen pipeline equals "keep the low
`validBits` bits and replicate bit `validBits - 1` through bits 31…`validBits`
of the 32-bit result". -/
theorem sext_core (w x vb : Nat) (h0 : 0 < vb) (hw : vb ≤ w) (hw32 : w ≤ 32) :
    ((Int.fdiv
        (if (x <<< (w - vb)) % 2^w < 2^(w - 1)
          then (((x <<< (w - vb)) % 2^w : Nat) : Int)
          else (((x <<< (w - vb)) % 2^w : Nat) : Int) - (2:Int)^w)
        ((2:Int)^(w - vb))) % ((2:Int)^32)).toNat
      = if x.testBit (vb - 1) then x % 2^vb + (2^32 - 2^vb) else x % 2^vb := by
  have hy : (x <<< (w - vb)) % 2^w = (x % 2^vb) * 2^(w - vb) := by
    rw [Nat.shiftLeft_eq,
      show (2:Nat)^w = 2^vb * 2^(w - vb) by rw [← pow_add]; congr 1; omega,
      Nat.mul_mod_mul_right]
  set shift := w - vb with hshift
  set m := x % 2^vb with hm
  have hmlt : m < 2^vb := Nat.mod_lt _ (Nat.two_pow_pos vb)
  have htb : x.testBit (vb - 1) = m.testBit (vb - 1) := by
    rw [hm, Nat.testBit_mod_two_pow]
    have hlt : vb - 1 < vb := by omega
    simp [hlt]
  have hp1 : (2:Nat)^vb = 2^(vb - 1) * 2 := by
    conv_lhs => rw [show vb = (vb - 1) + 1 by omega]
    rw [pow_succ]
  have hw1 : (2:Nat)^(w - 1) = 2^(vb - 1) * 2^shift := by
    rw [← pow_add]
    congr 1
    omega
  have hvb32 : (2:Nat)^vb ≤ 2^32 := Nat.pow_le_pow_right (by norm_num) (by omega)
  have hsplitZ : ((2:Int)^w) = (2:Int)^vb * (2:Int)^shift := by
    rw [← pow_add]
    congr 1
    omega
  by_cases hc : 2^(vb - 1) ≤ m
  · have htrue : x.testBit (vb - 1) = true := by
      rw [htb, Nat.testBit_to_div_mod]
      have hdiv : m / 2^(vb - 1) = 1 := by
        refine Nat.div_eq_of_lt_le (by simpa using hc) ?_
        rw [show (1 + 1) * 2^(vb - 1) = 2^(vb - 1) * 2 by ring, ← hp1]
        exact hmlt
      simp [hdiv]
    have hbig : ¬ (x <<< shift) % 2^w < 2^(w - 1) := by
      rw [hy, hw1]
      exact not_lt.mpr (Nat.mul_le_mul_right _ hc)
    rw [if_neg hbig, htrue, if_pos rfl]
    have hz : ((((x <<< shift) % 2^w : Nat) : Int) - (2:Int)^w) =
        ((m : Int) - (2:Int)^vb) * (2:Int)^shift := by
      rw [hy, hsplitZ]
      push_cast
      ring
    rw [hz, Int.mul_fdiv_cancel _ (by positivity)]
    have hle : ((2:Int)^vb) ≤ (2:Int)^32 := by exact_mod_cast hvb32
    have hmc : ((m : Int)) < (2:Int)^vb := by exact_mod_cast hmlt
    have hemod : ((m : Int) - 2^vb) % (2:Int)^32 = (m : Int) - 2^vb + 2^32 := by
      have h1 : ((m : Int) - 2^vb) % (2:Int)^32 =
          ((m : Int) - 2^vb + 2^32 * 1) % (2:Int)^32 := by
        rw [Int.add_mul_emod_self_left]
      rw [h1, mul_one]
      refine Int.emod_eq_of_lt (by linarith) (by linarith)
    rw [hemod]
    have hA : ((2:Int)^vb) = ((2^vb : Nat) : Int) := by push_cast; ring
    have h32Z : ((2:Int)^32) = 4294967296 := by norm_num
    have h32N : (2:Nat)^32 = 4294967296 := by norm_num
    rw [hA, h32Z, h32N]
    rw [h32N] at hvb32
    generalize (2:Nat)^vb = A at hmlt hvb32 ⊢
    omega
  · have hfalse : x.testBit (vb - 1) = false := by
      rw [htb, Nat.testBit_to_div_mod]
      have hdiv : m / 2^(vb - 1) = 0 := Nat.div_eq_of_lt (by omega)
      simp [hdiv]
    have hsmall : (x <<< shift) % 2^w < 2^(w - 1) := by
      rw [hy, hw1]
      exact (Nat.mul_lt_mul_right (Nat.two_pow_pos shift)).mpr (by omega)
    rw [if_pos hsmall, hfalse, if_neg (by simp)]
    have hz : (((x <<< shift) % 2^w : Nat) : Int) = (m : Int) * (2:Int)^shift := by
      rw [hy]
      push_cast
      ring
    rw [hz, Int.mul_fdiv_cancel _ (by positivity)]
    have hmc : ((m : Int)) < (2:Int)^32 := by
      exact_mod_cast Nat.lt_of_lt_of_le hmlt hvb32
    rw [Int.emod_eq_of_lt (by positivity) hmc]
    simp

/-- Statement-level rendering of the specified sign-extension contract:
treat bit `validBits - 1` as the sign bit, keep the low `validBits` bits
unchanged, and replicate the sign bit through all higher bits of the
32-bit result (adding `2^32 - 2^validBits` sets exactly bits
`validBits`…`31`). -/
def sign_extend_spec (x validBits : Nat) : Nat :=
  if x.testBit (validBits - 1) then x % 2^validBits + (2^32 - 2^validBits)
  else x % 2^validBits

theorem sign_extend_u16_eq (x vb : Nat) (h0 : 0 < vb) (hw : vb ≤ 16) :
    sign_extend_u16 x vb = sign_extend_spec x vb :=
  sext_core 16 x vb h0 hw (by norm_num)

theorem sign_extend_u32_eq (x vb : Nat) (h0 : 0 < vb) (hw : vb ≤ 32) :
    sign_extend_u32 x vb = sign_extend_spec x vb :=
  sext_core 32 x vb h0 hw (by norm_num)

theorem Register.ofBits_inj (i j : Nat) (hi : i < 16) (hj : j < 16)
    (h : Register.ofBits i = Register.ofBits j) : i = j := by
  revert h; revert hj; revert j; revert hi; revert i; decide

/-- Claim C8: both sign-extension implementations treat bit
`valid_bits - 1` as the sign bit and propagate it through all higher bits
of the 32-bit result while preserving the low `valid_bits` bits
(`sign_extend_spec`); with `valid_bits` equal to the native width the
native-width bits pass through unchanged (an exact no-op for the 32-bit
width), a 1-valid-bit value `1` yields `0xffffffff`, a 4-valid-bit
`0b1001` yields `0xfffffff9`, and a 5-valid-bit `0b01001` (high bit
clear) yields `0x00000009` unchanged. -/
theorem C8_sign_extension :
    (∀ x vb, 0 < vb → vb ≤ 16 → sign_extend_u16 x vb = sign_extend_spec x vb) ∧
    (∀ x vb, 0 < vb → vb ≤ 32 → sign_extend_u32 x vb = sign_extend_spec x vb) ∧
    (∀ x, x < 2^32 → sign_extend_u32 x 32 = x) ∧
    (∀ x, x < 2^16 → sign_extend_u16 x 16 % 2^16 = x) ∧
    sign_extend_u16 1 1 = 0xffffffff ∧ sign_extend_u32 1 1 = 0xffffffff ∧
    sign_extend_u16 0b1001 4 = 0xfffffff9 ∧ sign_extend_u32 0b1001 4 = 0xfffffff9 ∧
    sign_extend_u16 0b01001 5 = 0x00000009 ∧ sign_extend_u32 0b01001 5 = 0x00000009 := by
  refine ⟨sign_extend_u16_eq, sign_extend_u32_eq, ?_, ?_, ?_, ?_, ?_, ?_, ?_, ?_⟩
  · intro x hx
    rw [sign_extend_u32_eq x 32 (by norm_num) (le_refl 32)]
    unfold sign_extend_spec
    by_cases h : x.testBit 31 <;> simp [h, Nat.mod_eq_of_lt hx] <;> omega
  · intro x hx
    rw [sign_extend_u16_eq x 16 (by norm_num) (le_refl 16)]
    unfold sign_extend_spec
    by_cases h : x.testBit 15 <;> simp [h, Nat.mod_eq_of_lt hx] <;> omega
  all_goals decide

theorem C8_sign_extension_witness :
    sign_extend_u16 9 4 = sign_extend_spec 9 4 :=
  C8_sign_extension.1 9 4 (by norm_num) (by norm_num)

/-- Claim C7: for every bitmap, `register_list_from_bit_array` returns
exactly the registers whose bit is set, in ascending bit-index order
(the ascending enumeration of indices 0–15 filtered by the bitmap and
mapped to registers); register `i` appears in the output iff bit `i` is
set; bitmap `0` yields the empty list, `0b111` yields `[R0, R1, R2]`,
`0x8000` yields `[PC]`, and `0xffff` yields all 16 registers in
ascending order. -/
theorem C7_register_list :
    (∀ bm, register_list_from_bit_array bm =
      .ok (((List.range 16).filter (fun i => bm.testBit i)).map Register.ofBits)) ∧
    (∀ bm i, i < 16 → ∀ out, register_list_from_bit_array bm = .ok out →
      (Register.ofBits i ∈ out ↔ bm.testBit i = true)) ∧
    register_list_from_bit_array 0 = .ok [] ∧
    register_list_from_bit_array 0b111 = .ok [.R0, .R1, .R2] ∧
    register_list_from_bit_array 0x8000 = .ok [.PC] ∧
    register_list_from_bit_array 0xffff =
      .ok [.R0, .R1, .R2, .R3, .R4, .R5, .R6, .R7,
        .R8, .R9, .R10, .R11, .R12, .SP, .LR, .PC] := by
  refine ⟨register_list_eq, ?_, rfl, rfl, rfl, rfl⟩
  intro bm i hi out hout
  rw [register_list_eq bm] at hout
  simp only [Except.ok.injEq] at hout
  subst hout
  constructor
  · intro hmem
    obtain ⟨j, hjmem, hj⟩ := List.mem_map.mp hmem
    obtain ⟨hjr, hjb⟩ := List.mem_filter.mp hjmem
    have hj16 : j < 16 := List.mem_range.mp hjr
    have : j = i := Register.ofBits_inj j i hj16 hi hj
    exact this ▸ hjb
  · intro hbit
    exact List.mem_map_of_mem Register.ofBits
      (List.mem_filter.mpr ⟨List.mem_range.mpr hi, hbit⟩)

theorem C7_register_list_witness :
    Register.ofBits 1 ∈ [Register.R0, Register.R1, Register.R2] ↔
      Nat.testBit 7 1 = true :=
  C7_register_list.2.1 7 1 (by norm_num) [Register.R0, Register.R1, Register.R2] rfl

/-- Claim C6 (code divergence): on the hint encoding `0xbf30`
(`op_a = 0b0011`, low 4 bits zero) the decoder produces `WFE`, not the
architecturally mandated `WFI`; the `WFI` variant exists but is never
produced by this arm. -/
theorem C6_hint_divergence :
    parse [0x30, 0xbf] = .ok ⟨.Bit16, .WFE⟩ ∧
    parse_hint_instruction 0xbf30 = .ok .WFE ∧
    Operation.WFE ≠ Operation.WFI :=
  ⟨rfl, rfl, fun h => Operation.noConfusion h⟩

/-- Claim C9 (code divergence): the decoder reports every failure as the
same unit error — a 1-byte truncated input and a well-formed but
unsupported 32-bit encoding produce identical error values, so a caller
cannot distinguish the failure causes from the returned value. -/
theorem C9_error_uninformative :
    parse [0x00] = .error .errUnit ∧
    parse [0x50, 0xe8, 0x00, 0x00] = .error .errUnit :=
  ⟨rfl, rfl⟩

/-- Claim C3 (counterexample): the branch-with-link encoding with
`S = 0`, `J1 = 0`, `J2 = 0` and both immediate fields zero
(bytes `f0 00 d0 00`, little-endian halfwords `0xf000 0xd000`) decodes to
`BL` with offset `0x00c00000` (because `I1 = I2 = NOT(0 XOR 0) = 1`),
not offset `0`. -/
theorem C3_counterexample :
    parse [0x00, 0xf0, 0x00, 0xd0] = .ok ⟨.Bit32, .BL 0xc00000⟩ ∧
    (0xc00000 : Nat) ≠ 0 :=
  ⟨rfl, by norm_num⟩

/-- Claim C3 (amended): offset `0` is decoded from the encoding with
`S = 0, J1 = 1, J2 = 1` (making `I1 = I2 = 0`) and zero immediates, and
the encoding with `S = 1` and all other fields zero decodes to
`0xff000000`, the maximally negative representable 25-bit offset
`-2^24` viewed as a 32-bit word. -/
theorem C3_bl_boundary_amended :
    parse [0x00, 0xf0, 0x00, 0xf8] = .ok ⟨.Bit32, .BL 0⟩ ∧
    parse [0x00, 0xf4, 0x00, 0xd0] = .ok ⟨.Bit32, .BL 0xff000000⟩ ∧
    (0xff000000 : Nat) = 2^32 - 2^24 :=
  ⟨rfl, rfl, by norm_num⟩

/-- Claim C4: on the logical-shift-left-immediate encoding (arithmetic
group, top bits `000 00` / `000 01`, i.e. bits 15–9 at most 3), a decoded
shift-amount immediate of zero yields the flag-setting register move
`MOVReg`, while every nonzero immediate yields `LSLImm` carrying that
immediate — the same opcode hypothesis covers both outcomes, so the
choice depends only on the decoded immediate value. -/
theorem C4_lsl_zero_is_mov (input : Nat) (h : (input >>> 9) &&& 0x1f ≤ 3) :
    parse_arith_instructions input =
      (if (input >>> 6) &&& 0x1f = 0
        then .ok (.MOVReg true (Register.ofBits ((input >>> 3) &&& 0x7))
          (Register.ofBits (input &&& 0x7)))
        else .ok (.LSLImm ((input >>> 6) &&& 0x1f)
          (Register.ofBits ((input >>> 3) &&& 0x7))
          (Register.ofBits (input &&& 0x7)))) := by
  unfold parse_arith_instructions
  simp only [decodeReg_and7, andThen_ok]
  rw [if_pos h]
  by_cases himm : (input >>> 6) &&& 0x1f = 0
  · simp [himm]
  · simp [himm, Nat.pos_of_ne_zero himm]

theorem C4_lsl_zero_is_mov_witness :
    parse_arith_instructions 0x48 =
      (if (0x48 >>> 6) &&& 0x1f = 0
        then .ok (.MOVReg true (Register.ofBits ((0x48 >>> 3) &&& 0x7))
          (Register.ofBits (0x48 &&& 0x7)))
        else .ok (.LSLImm ((0x48 >>> 6) &&& 0x1f)
          (Register.ofBits ((0x48 >>> 3) &&& 0x7))
          (Register.ofBits (0x48 &&& 0x7)))) :=
  C4_lsl_zero_is_mov 0x48 (by decide)

/-- Claim C5: in the 16-bit conditional-branch group, condition-nibble 14
fails (permanently undefined) even though the generic condition decoder
accepts 14 (as the "always" sentinel), nibble 15 becomes a supervisor
call carrying the low 8 bits, and every nibble 0–13 becomes a
conditional branch whose condition is the decoded nibble and whose
immediate is the low 8 bits shifted left once and sign-extended from 9
bits. -/
theorem C5_conditional_branch (input : Nat) :
    ((input >>> 8) &&& 0xf = 14 → parse_conditional_branch input = .error .errUnit) ∧
    ((input >>> 8) &&& 0xf = 15 →
      parse_conditional_branch input = .ok (.SVC (input &&& 0xff))) ∧
    ((input >>> 8) &&& 0xf ≤ 13 →
      parse_conditional_branch input =
        .ok (.B (Condition.ofBits ((input >>> 8) &&& 0xf))
          (sign_extend_u16 ((input &&& 0xff) <<< 1) 9))) ∧
    Condition.tryFrom 14 = some .NoneCond := by
  refine ⟨?_, ?_, ?_, rfl⟩
  · intro h
    unfold parse_conditional_branch
    rw [if_pos h]
  · intro h
    unfold parse_conditional_branch
    rw [if_neg (by omega), if_pos h]
  · intro h
    unfold parse_conditional_branch
    rw [if_neg (by omega), if_neg (by omega),
      decodeCond_of_lt (by omega), andThen_ok]

theorem C5_conditional_branch_witness :
    parse_conditional_branch 0xd001 =
      .ok (.B (Condition.ofBits ((0xd001 >>> 8) &&& 0xf))
        (sign_extend_u16 ((0xd001 &&& 0xff) <<< 1) 9)) :=
  (C5_conditional_branch 0xd001).2.2.1 (by decide)

/-- Spec-side rendering of the branch-with-link immediate (claim C2's
words): `S`, `J1`, `J2`, `imm10`, `imm11` are taken from bits 26, 13, 11,
25–16 and 10–0 of the assembled word, `I1 = NOT(J1 XOR S)` and
`I2 = NOT(J2 XOR S)` as single bits, and the result is the 32-bit sign
extension of the 25-bit concatenation `S:I1:I2:imm10:imm11:0`. -/
def blSpecImm (input : Nat) : Nat :=
  sign_extend_u32
    ((((input >>> 26) &&& 0x1) <<< 24) |||
      ((1 - (((input >>> 13) &&& 0x1) ^^^ ((input >>> 26) &&& 0x1))) <<< 23) |||
      ((1 - (((input >>> 11) &&& 0x1) ^^^ ((input >>> 26) &&& 0x1))) <<< 22) |||
      (((input >>> 16) &&& 0x3ff) <<< 12) ||| ((input &&& 0x7ff) <<< 1)) 25

theorem not_xor_bit (a b : Nat) (ha : a ≤ 1) (hb : b ≤ 1) :
    ((a ^^^ b) ^^^ 0xffffffff) &&& 0x1 = 1 - (a ^^^ b) := by
  interval_cases a <;> interval_cases b <;> decide

theorem parse_misc_ctrl_ne_bl (input imm : Nat) :
    parse_misc_ctrl input ≠ .ok (.BL imm) := by
  unfold parse_misc_ctrl
  split_ifs <;> simp

/-- Claim C2: whenever the branch-and-miscellaneous-control dispatch
produces a branch-with-link operation, its immediate is exactly the
spec-side reconstruction `blSpecImm`: sign extension of the 25-bit value
`S:I1:I2:imm10:imm11:0` with `I1 = NOT(J1 XOR S)`, `I2 = NOT(J2 XOR S)`
and the five fields taken from bits 26, 13, 11, 25–16 and 10–0. -/
theorem C2_bl_immediate (input imm : Nat)
    (h : parse_branch_misc_ctrl input = .ok (.BL imm)) : imm = blSpecImm input := by
  unfold parse_branch_misc_ctrl at h
  by_cases c1 : ((input >>> 12) &&& 0x7 = 0b000 ∨ (input >>> 12) &&& 0x7 = 0b010) ∧
      0b0111000 ≤ (input >>> 20) &&& 0x7f ∧ (input >>> 20) &&& 0x7f ≤ 0b0111001
  · rw [if_pos c1, decodeReg_andF, andThen_ok] at h
    cases hs : decodeSpecial (input &&& 0xff) with
    | ok s => rw [hs, andThen_ok] at h; exact absurd h (by simp)
    | error e => rw [hs, andThen_error] at h; exact absurd h (by simp)
  · rw [if_neg c1] at h
    by_cases c2 : ((input >>> 12) &&& 0x7 = 0b000 ∨ (input >>> 12) &&& 0x7 = 0b010) ∧
        (input >>> 20) &&& 0x7f = 0b0111011
    · rw [if_pos c2] at h
      exact absurd h (parse_misc_ctrl_ne_bl input imm)
    · rw [if_neg c2] at h
      by_cases c3 : ((input >>> 12) &&& 0x7 = 0b000 ∨ (input >>> 12) &&& 0x7 = 0b010) ∧
          0b0111110 ≤ (input >>> 20) &&& 0x7f ∧ (input >>> 20) &&& 0x7f ≤ 0b0111111
      · rw [if_pos c3, decodeReg_andF, andThen_ok] at h
        cases hs : decodeSpecial (input &&& 0xff) with
        | ok s => rw [hs, andThen_ok] at h; exact absurd h (by simp)
        | error e => rw [hs, andThen_error] at h; exact absurd h (by simp)
      · rw [if_neg c3] at h
        by_cases c4 : (input >>> 12) &&& 0x7 = 0b111 ∧ (input >>> 20) &&& 0x7f = 0b1111111
        · rw [if_pos c4] at h
          exact absurd h (by simp)
        · rw [if_neg c4] at h
          by_cases c5 : (input >>> 12) &&& 0x7 = 0b101 ∨ (input >>> 12) &&& 0x7 = 0b111
          · rw [if_pos c5] at h
            have h2 := Operation.BL.inj (Except.ok.inj h)
            rw [← h2]
            unfold blSpecImm
            rw [not_xor_bit _ _ Nat.and_le_right Nat.and_le_right,
              not_xor_bit _ _ Nat.and_le_right Nat.and_le_right]
          · rw [if_neg c5] at h
            exact absurd h (by simp)

theorem C2_bl_immediate_witness : 0xc00000 = blSpecImm 0xf000d000 :=
  C2_bl_immediate 0xf000d000 0xc00000 (by rfl)

theorem andThen_ok_width {x : Except DecodeFailure Operation}
    {wd : InstructionWidth} {ins : Instruction}
    (h : andThen x (fun op => .ok ⟨wd, op⟩) = .ok ins) : ins.width = wd := by
  cases x with
  | ok a =>
    rw [andThen_ok] at h
    rw [← Except.ok.inj h]
  | error e =>
    rw [andThen_error] at h
    exact absurd h (by simp)

/-- Claim C1: `parse` classifies width by the top 5 bits of the first
little-endian halfword — fewer than 2 bytes always fails; when the top 5
bits are `0b11101`, `0b11110` or `0b11111` the decode is 32-bit (any
success has width `Bit32`) and fewer than 4 bytes fails even with exactly
2 bytes present; for every other top-5 value the decode is 16-bit (any
success has width `Bit16`) and depends only on the first 2 bytes. -/
theorem C1_width_classification :
    (∀ input : List Nat, input.length < 2 → parse input = .error .errUnit) ∧
    (∀ b0 b1 : Nat, ∀ rest : List Nat,
      (((((b0 % 256) + 256 * (b1 % 256)) >>> 11) &&& 0x1f = 0b11101 ∨
        (((b0 % 256) + 256 * (b1 % 256)) >>> 11) &&& 0x1f = 0b11110 ∨
        (((b0 % 256) + 256 * (b1 % 256)) >>> 11) &&& 0x1f = 0b11111) →
        ((rest.length < 2 → parse (b0 :: b1 :: rest) = .error .errUnit) ∧
          (∀ ins, parse (b0 :: b1 :: rest) = .ok ins → ins.width = .Bit32))) ∧
      (¬((((b0 % 256) + 256 * (b1 % 256)) >>> 11) &&& 0x1f = 0b11101 ∨
          (((b0 % 256) + 256 * (b1 % 256)) >>> 11) &&& 0x1f = 0b11110 ∨
          (((b0 % 256) + 256 * (b1 % 256)) >>> 11) &&& 0x1f = 0b11111) →
        ((∀ ins, parse (b0 :: b1 :: rest) = .ok ins → ins.width = .Bit16) ∧
          parse (b0 :: b1 :: rest) = parse [b0, b1]))) := by
  constructor
  · intro input h
    rw [parse, if_pos h]
  · intro b0 b1 rest
    have hlen2 : ¬ (b0 :: b1 :: rest).length < 2 := by
      simp only [List.length_cons]
      omega
    constructor
    · intro htri
      constructor
      · intro hlen
        have hlen4 : (b0 :: b1 :: rest).length < 4 := by
          simp only [List.length_cons]
          omega
        rw [parse, if_neg hlen2]
        simp only [List.getD_cons_zero, List.getD_cons_succ]
        rw [if_pos htri, if_pos hlen4]
      · intro ins h
        rw [parse, if_neg hlen2] at h
        simp only [List.getD_cons_zero, List.getD_cons_succ] at h
        rw [if_pos htri] at h
        by_cases hlen4 : (b0 :: b1 :: rest).length < 4
        · rw [if_pos hlen4] at h
          exact absurd h (by simp)
        · rw [if_neg hlen4] at h
          exact andThen_ok_width h
    · intro htri
      constructor
      · intro ins h
        rw [parse, if_neg hlen2] at h
        simp only [List.getD_cons_zero, List.getD_cons_succ] at h
        rw [if_neg htri] at h
        exact andThen_ok_width h
      · rw [parse, parse, if_neg hlen2,
          if_neg (show ¬ ([b0, b1] : List Nat).length < 2 by simp)]
        simp only [List.getD_cons_zero, List.getD_cons_succ]
        rw [if_neg htri, if_neg htri]

theorem C1_width_classification_witness :
    parse [0x00] = .error .errUnit ∧
    parse [0x00, 0xe8] = .error .errUnit ∧
    parse [0x01, 0xd0] = parse [0x01, 0xd0] := by
  refine ⟨C1_width_classification.1 [0x00] (by simp), ?_, ?_⟩
  · exact ((C1_width_classification.2 0x00 0xe8 []).1 (by decide)).1 (by simp)
  · exact ((C1_width_classification.2 0x01 0xd0 []).2 (by decide)).2

theorem andThen_no_panic {x : Except DecodeFailure α} {f : α → Except DecodeFailure β}
    (hx : x ≠ .error .panicked) (hf : ∀ a, f a ≠ .error .panicked) :
    andThen x f ≠ .error .panicked := by
  cases x with
  | ok a => exact hf a
  | error e =>
    cases e with
    | errUnit => simp [andThen]
    | panicked => exact absurd rfl hx

theorem ite_no_panic {c : Prop} [Decidable c] {a b : Except DecodeFailure α}
    (ha : a ≠ .error .panicked) (hb : b ≠ .error .panicked) :
    (if c then a else b) ≠ .error .panicked := by
  by_cases h : c
  · rw [if_pos h]; exact ha
  · rw [if_neg h]; exact hb

theorem decodeSpecial_no_panic (x : Nat) : decodeSpecial x ≠ .error .panicked := by
  unfold decodeSpecial
  cases SpecialRegister.tryFrom x <;> simp

theorem decodeCond_no_panic (x : Nat) : decodeCond x ≠ .error .panicked := by
  unfold decodeCond
  cases Condition.tryFrom x <;> simp

theorem parse_misc_ctrl_no_panic (input : Nat) :
    parse_misc_ctrl input ≠ .error .panicked := by
  unfold parse_misc_ctrl
  repeat' apply ite_no_panic
  all_goals simp

theorem parse_branch_misc_ctrl_no_panic (input : Nat) :
    parse_branch_misc_ctrl input ≠ .error .panicked := by
  unfold parse_branch_misc_ctrl
  repeat' apply ite_no_panic
  all_goals solve
    | (simp only [decodeReg_and7, decodeReg_andF, andThen_ok]
       exact andThen_no_panic (decodeSpecial_no_panic _) (fun s => by simp))
    | (simp only [decodeReg_and7, decodeReg_andF, decodeReg_hiLo, andThen_ok, register_list_eq]
       repeat' apply ite_no_panic
       all_goals simp)
    | simp

theorem parse_32bit_operation_no_panic (input : Nat) :
    parse_32bit_operation input ≠ .error .panicked := by
  unfold parse_32bit_operation
  apply ite_no_panic
  · exact parse_branch_misc_ctrl_no_panic input
  · simp

theorem parse_hint_instruction_no_panic (input : Nat) :
    parse_hint_instruction input ≠ .error .panicked := by
  unfold parse_hint_instruction
  repeat' apply ite_no_panic
  all_goals simp

theorem parse_misc_16_bit_no_panic (input : Nat) :
    parse_misc_16_bit input ≠ .error .panicked := by
  unfold parse_misc_16_bit
  repeat' apply ite_no_panic
  all_goals solve
    | (simp only [decodeReg_and7, decodeReg_andF, decodeReg_hiLo, andThen_ok, register_list_eq]
       repeat' apply ite_no_panic
       all_goals simp)
    | simp

theorem parse_arith_instructions_no_panic (input : Nat) :
    parse_arith_instructions input ≠ .error .panicked := by
  unfold parse_arith_instructions
  repeat' apply ite_no_panic
  all_goals solve
    | (simp only [decodeReg_and7, decodeReg_andF, decodeReg_hiLo, andThen_ok, register_list_eq]
       repeat' apply ite_no_panic
       all_goals simp)
    | simp

theorem parse_data_processing_instruction_no_panic (input : Nat) :
    parse_data_processing_instruction input ≠ .error .panicked := by
  unfold parse_data_processing_instruction
  solve
    | (simp only [decodeReg_and7, decodeReg_andF, decodeReg_hiLo, andThen_ok, register_list_eq]
       repeat' apply ite_no_panic
       all_goals simp)
    | simp

theorem parse_special_data_branch_exchange_instruction_no_panic (input : Nat) :
    parse_special_data_branch_exchange_instruction input ≠ .error .panicked := by
  unfold parse_special_data_branch_exchange_instruction
  repeat' apply ite_no_panic
  all_goals solve
    | (simp only [decodeReg_and7, decodeReg_andF, decodeReg_hiLo, andThen_ok, register_list_eq]
       repeat' apply ite_no_panic
       all_goals simp)
    | simp

theorem parse_load_store_instruction_no_panic (input : Nat) :
    parse_load_store_instruction input ≠ .error .panicked := by
  unfold parse_load_store_instruction
  repeat' apply ite_no_panic
  all_goals solve
    | (simp only [decodeReg_and7, decodeReg_andF, decodeReg_hiLo, andThen_ok, register_list_eq]
       repeat' apply ite_no_panic
       all_goals simp)
    | simp

theorem parse_conditional_branch_no_panic (input : Nat) :
    parse_conditional_branch input ≠ .error .panicked := by
  unfold parse_conditional_branch
  repeat' apply ite_no_panic
  all_goals solve
    | simp
    | exact andThen_no_panic (decodeCond_no_panic _) (fun c => by simp)

set_option maxHeartbeats 1600000 in
theorem parse_16bit_operation_no_panic (input : Nat) :
    parse_16bit_operation input ≠ .error .panicked := by
  unfold parse_16bit_operation
  repeat' apply ite_no_panic
  all_goals solve
    | exact parse_arith_instructions_no_panic input
    | exact parse_data_processing_instruction_no_panic input
    | exact parse_special_data_branch_exchange_instruction_no_panic input
    | exact parse_load_store_instruction_no_panic input
    | exact parse_misc_16_bit_no_panic input
    | exact parse_conditional_branch_no_panic input
    | exact parse_hint_instruction_no_panic input
    | (simp only [decodeReg_and7, decodeReg_andF, decodeReg_hiLo, andThen_ok, register_list_eq]
       repeat' apply ite_no_panic
       all_goals simp)
    | exact andThen_no_panic (decodeCond_no_panic _) (fun c => by simp)
    | simp

/-- Claim C10: `parse` is total on every byte list — it always returns
`Ok` or the unit `Err` and never reaches a panicking `unwrap`: every
register conversion receives a field value masked to at most 15, the
register-list loop only converts indices 0–15, and the embedded decoder
is a terminating function by construction. -/
theorem C10_parse_never_panics (input : List Nat) :
    parse input ≠ .error .panicked := by
  unfold parse
  repeat' apply ite_no_panic
  all_goals solve
    | simp
    | exact andThen_no_panic (parse_32bit_operation_no_panic _) (fun op => by simp)
    | exact andThen_no_panic (parse_16bit_operation_no_panic _) (fun op => by simp)
